import Mathlib

/-!
Verification of the image-edit service core (`fileToBase64` and
`editImageWithPrompt` in the service module) against its
natural-language specification.

Bytes are modelled as natural numbers below 256; strings handled by the
JavaScript code are modelled as `String` or `List Char` where character
level reasoning is needed.
-/

/-- Alphabet of standard base64 (RFC 4648), the encoding produced by the
browser `FileReader.readAsDataURL` payload. -/
def b64Alphabet : List Char :=
  "ABCDEFGHIJKLMNOPQRSTUVWXYZabcdefghijklmnopqrstuvwxyz0123456789+/".data

/-- Character for a 6-bit group. -/
def b64Char (n : Nat) : Char := b64Alphabet.getD n 'A'

def b64ValAux : List Char → Nat → Char → Option Nat
  | [], _, _ => none
  | a :: as, i, c => if a = c then some i else b64ValAux as (i + 1) c

/-- Value of a base64 character, `none` when the character is not in the
alphabet. -/
def b64Val (c : Char) : Option Nat := b64ValAux b64Alphabet 0 c

/-- Standard base64 encoding of a byte sequence, with `=` padding, as the
browser produces inside the data URL. -/
def base64Encode : List Nat → List Char
  | [] => []
  | [a] => [b64Char (a / 4), b64Char (a % 4 * 16), '=', '=']
  | [a, b] => [b64Char (a / 4), b64Char (a % 4 * 16 + b / 16), b64Char (b % 16 * 4), '=']
  | a :: b :: c :: rest =>
    b64Char (a / 4) :: b64Char (a % 4 * 16 + b / 16) ::
      b64Char (b % 16 * 4 + c / 64) :: b64Char (c % 64) :: base64Encode rest

/-- Standard base64 decoding, the mathematical inverse the specification's
round-trip property refers to. -/
def base64Decode : List Char → Option (List Nat)
  | [] => some []
  | c1 :: c2 :: c3 :: c4 :: rest =>
    match b64Val c1, b64Val c2 with
    | some v1, some v2 =>
      if c3 = '=' then
        if c4 = '=' ∧ rest = [] then some [v1 * 4 + v2 / 16] else none
      else
        match b64Val c3 with
        | some v3 =>
          if c4 = '=' then
            if rest = [] then some [v1 * 4 + v2 / 16, v2 % 16 * 16 + v3 / 4] else none
          else
            match b64Val c4, base64Decode rest with
            | some v4, some ds =>
              some ((v1 * 4 + v2 / 16) :: (v2 % 16 * 16 + v3 / 4) :: (v3 % 4 * 64 + v4) :: ds)
            | _, _ => none
        | none => none
    | _, _ => none
  | _ => none

/-- JavaScript `String.prototype.split(',')` semantics on character lists:
every comma separates groups, leading/trailing/adjacent commas give empty
groups. -/
def splitOnComma : List Char → List (List Char)
  | [] => [[]]
  | c :: cs =>
    if c = ',' then [] :: splitOnComma cs
    else
      match splitOnComma cs with
      | [] => [[c]]
      | g :: gs => (c :: g) :: gs

/-- Character list of the data URL `FileReader.readAsDataURL` resolves with:
`data:<mime>;base64,<payload>`. -/
def dataURLChars (mime : String) (bytes : List Nat) : List Char :=
  "data:".data ++ mime.data ++ ";base64,".data ++ base64Encode bytes

/-- Model of `fileToBase64`: read the file as a data URL, split on `','` and
take index 1 (JavaScript indexing yields `undefined`, here `none`, when the
index is absent). -/
def fileToBase64 (mime : String) (bytes : List Nat) : Option (List Char) :=
  (splitOnComma (dataURLChars mime bytes)).get? 1

theorem b64Val_b64Char : ∀ n, n < 64 → b64Val (b64Char n) = some n := by decide

theorem b64Char_ne_eq : ∀ n, n < 64 → b64Char n ≠ '=' := by decide

theorem b64Char_ne_comma (n : Nat) : b64Char n ≠ ',' := by
  by_cases h : n < 64
  · exact (by decide : ∀ m, m < 64 → b64Char m ≠ ',') n h
  · have hlen : b64Alphabet.length ≤ n := by
      have : b64Alphabet.length = 64 := by decide
      omega
    unfold b64Char
    rw [List.getD_eq_default _ _ hlen]
    decide

theorem splitOnComma_ne_nil (l : List Char) : splitOnComma l ≠ [] := by
  induction l with
  | nil => simp [splitOnComma]
  | cons c cs ih =>
    simp only [splitOnComma]
    split
    · simp
    · cases h : splitOnComma cs with
      | nil => simp
      | cons g gs => simp [h]

theorem splitOnComma_no_comma (l : List Char) (h : ',' ∉ l) : splitOnComma l = [l] := by
  induction l with
  | nil => rfl
  | cons c cs ih =>
    simp only [List.mem_cons, not_or] at h
    have hc : c ≠ ',' := fun hc => h.1 hc.symm
    simp only [splitOnComma, if_neg hc, ih h.2]

theorem splitOnComma_append (l1 l2 : List Char) (h : ',' ∉ l1) :
    splitOnComma (l1 ++ ',' :: l2) = l1 :: splitOnComma l2 := by
  induction l1 with
  | nil => simp [splitOnComma]
  | cons c cs ih =>
    simp only [List.mem_cons, not_or] at h
    have hc : c ≠ ',' := fun hc => h.1 hc.symm
    simp only [List.cons_append, splitOnComma, if_neg hc, List.append_eq, ih h.2]

theorem byteChunks_induction {P : List Nat → Prop} (h0 : P []) (h1 : ∀ a, P [a])
    (h2 : ∀ a b, P [a, b])
    (h3 : ∀ a b c rest, P rest → P (a :: b :: c :: rest)) : ∀ l, P l
  | [] => h0
  | [a] => h1 a
  | [a, b] => h2 a b
  | a :: b :: c :: rest => h3 a b c rest (byteChunks_induction h0 h1 h2 h3 rest)

theorem base64_roundtrip (bytes : List Nat) (hb : ∀ b ∈ bytes, b < 256) :
    base64Decode (base64Encode bytes) = some bytes := by
  induction bytes using byteChunks_induction with
  | h0 => rfl
  | h1 a =>
    have ha : a < 256 := hb a (by simp)
    have e1 := b64Val_b64Char (a / 4) (by omega)
    have e2 := b64Val_b64Char (a % 4 * 16) (by omega)
    simp only [base64Encode, base64Decode, e1, e2, if_pos rfl]
    simp only [and_self, if_pos, Option.some.injEq, List.cons.injEq, and_true]
    omega
  | h2 a b =>
    have ha : a < 256 := hb a (by simp)
    have hbb : b < 256 := hb b (by simp)
    have e1 := b64Val_b64Char (a / 4) (by omega)
    have e2 := b64Val_b64Char (a % 4 * 16 + b / 16) (by omega)
    have e3 := b64Val_b64Char (b % 16 * 4) (by omega)
    have n3 := b64Char_ne_eq (b % 16 * 4) (by omega)
    simp only [base64Encode, base64Decode, e1, e2, e3, if_neg n3]
    simp only [if_pos rfl, Option.some.injEq, List.cons.injEq, and_true, if_true,
      eq_self_iff_true]
    constructor <;> omega
  | h3 a b c rest ih =>
    have ha : a < 256 := hb a (by simp)
    have hbb : b < 256 := hb b (by simp)
    have hc : c < 256 := hb c (by simp)
    have hrest : ∀ x ∈ rest, x < 256 := fun x hx => hb x (by simp [hx])
    have e1 := b64Val_b64Char (a / 4) (by omega)
    have e2 := b64Val_b64Char (a % 4 * 16 + b / 16) (by omega)
    have e3 := b64Val_b64Char (b % 16 * 4 + c / 64) (by omega)
    have e4 := b64Val_b64Char (c % 64) (by omega)
    have n3 := b64Char_ne_eq (b % 16 * 4 + c / 64) (by omega)
    have n4 := b64Char_ne_eq (c % 64) (by omega)
    simp only [base64Encode, base64Decode, e1, e2, e3, e4, if_neg n3, if_neg n4, ih hrest,
      Option.some.injEq, List.cons.injEq, and_true]
    refine ⟨by omega, by omega, by omega⟩

theorem base64Encode_no_comma (bytes : List Nat) : ',' ∉ base64Encode bytes := by
  induction bytes using byteChunks_induction with
  | h0 => simp [base64Encode]
  | h1 a =>
    simp only [base64Encode, List.mem_cons, List.not_mem_nil, or_false]
    push_neg
    exact ⟨(b64Char_ne_comma _).symm, (b64Char_ne_comma _).symm, by decide, by decide⟩
  | h2 a b =>
    simp only [base64Encode, List.mem_cons, List.not_mem_nil, or_false]
    push_neg
    exact ⟨(b64Char_ne_comma _).symm, (b64Char_ne_comma _).symm, (b64Char_ne_comma _).symm,
      by decide⟩
  | h3 a b c rest ih =>
    simp only [base64Encode, List.mem_cons]
    push_neg
    exact ⟨(b64Char_ne_comma _).symm, (b64Char_ne_comma _).symm, (b64Char_ne_comma _).symm,
      (b64Char_ne_comma _).symm, ih⟩

theorem fileToBase64_eq (mime : String) (bytes : List Nat) (hm : ',' ∉ mime.data) :
    fileToBase64 mime bytes = some (base64Encode bytes) := by
  have hsplit : dataURLChars mime bytes =
      ("data:".data ++ mime.data ++ ";base64".data) ++ ',' :: base64Encode bytes := by
    simp [dataURLChars, List.append_assoc]
  have hpre : ',' ∉ "data:".data ++ mime.data ++ ";base64".data := by
    simp only [List.mem_append, not_or]
    exact ⟨⟨by decide, hm⟩, by decide⟩
  unfold fileToBase64
  rw [hsplit, splitOnComma_append _ _ hpre,
    splitOnComma_no_comma _ (base64Encode_no_comma bytes)]
  rfl

/-- Inline binary payload of a response or request part (`Blob` in the
service SDK). -/
structure Blob where
  data : String
  mimeType : String
deriving Repr, DecidableEq

/-- One typed fragment of a request or candidate content; in the SDK both
fields are optional. -/
structure ContentPart where
  inlineData : Option Blob := none
  text : Option String := none
deriving Repr, DecidableEq

/-- Content of a candidate: an optional list of parts. -/
structure Content where
  parts : Option (List ContentPart)
deriving Repr, DecidableEq

/-- One candidate output of the generation service. -/
structure Candidate where
  content : Option Content
deriving Repr, DecidableEq

/-- Response of `generateContent`: an optional candidate list. -/
structure GenerateContentResponse where
  candidates : Option (List Candidate)
deriving Repr, DecidableEq

/-- Response modality enumeration of the SDK. -/
inductive Modality
  | text
  | image
  | audio
deriving Repr, DecidableEq

/-- Request value passed to `ai.models.generateContent`. -/
structure GenerateContentParams where
  model : String
  parts : List ContentPart
  responseModalities : List Modality
deriving Repr, DecidableEq

/-- Outcome of the single remote call: a parsed response, or a thrown
transport error carrying a diagnostic message. -/
inductive ServiceOutcome
  | success (response : GenerateContentResponse)
  | failure (message : String)
deriving Repr, DecidableEq

/-- Errors surfaced by `editImageWithPrompt`: the credential error thrown
before the `try` block, and the uniform wrapper thrown by the `catch`. -/
inductive EditError
  | missingCredential (message : String)
  | generationFailed (message : String)
deriving Repr, DecidableEq

/-- Message of the missing-credential error in the source. -/
def missingKeyMessage : String := "API_KEY environment variable is not set."

/-- Message of the no-image error thrown inside the `try` block. -/
def noImageMessage : String :=
  "No image data found in the API response. The model may have refused the request."

/-- Head of the uniform wrapper message built by the `catch` block. -/
def generationFailedHead : String := "Failed to generate image: "

/-- JavaScript truthiness test `!process.env.API_KEY`: true when the
variable is unset or set to the empty string. -/
def apiKeyMissing : Option String → Bool
  | none => true
  | some s => s = ""

/-- Request constructed by `editImageWithPrompt`: model name, two ordered
parts (inline image data, then prompt text), image response modality. -/
def buildRequest (base64ImageData mimeType prompt : String) : GenerateContentParams :=
  { model := "gemini-2.5-flash-image"
  , parts :=
      [ { inlineData := some { data := base64ImageData, mimeType := mimeType }, text := none }
      , { inlineData := none, text := some prompt } ]
  , responseModalities := [Modality.image] }

/-- Optional chaining `response.candidates?.[0]?.content?.parts || []`. -/
def responseParts (response : GenerateContentResponse) : List ContentPart :=
  match response.candidates with
  | none => []
  | some [] => []
  | some (cand :: _) =>
    match cand.content with
    | none => []
    | some content =>
      match content.parts with
      | none => []
      | some parts => parts

/-- The `for` loop over the parts: data of the first part whose
`inlineData` field is set (JavaScript truthiness on an object field). -/
def findInlineData : List ContentPart → Option String
  | [] => none
  | p :: ps =>
    match p.inlineData with
    | some blob => some blob.data
    | none => findInlineData ps

/-- Body of the `try` block after the remote call is resolved: a thrown
error is modelled as `Except.error` carrying the error message. -/
def tryBody (outcome : ServiceOutcome) : Except String String :=
  match outcome with
  | .failure message => .error message
  | .success response =>
    match findInlineData (responseParts response) with
    | some data => .ok data
    | none => .error noImageMessage

/-- Observable run of `editImageWithPrompt`: the returned or thrown value,
and the trace of requests issued to the remote service. -/
structure EditRun where
  result : Except EditError String
  requests : List GenerateContentParams
deriving Repr

/-- Model of `editImageWithPrompt`. The ambient service is a function from
the issued request to its outcome; every application of it is recorded in
the `requests` trace. The credential check precedes the `try` block, so its
error is not wrapped; everything thrown inside the `try` block is rethrown
as the uniform generation-failure wrapper. -/
def editImageWithPrompt (apiKey : Option String)
    (service : GenerateContentParams → ServiceOutcome)
    (base64ImageData mimeType prompt : String) : EditRun :=
  if apiKeyMissing apiKey then
    { result := .error (.missingCredential missingKeyMessage), requests := [] }
  else
    let req := buildRequest base64ImageData mimeType prompt
    match tryBody (service req) with
    | .ok data => { result := .ok data, requests := [req] }
    | .error message =>
      { result := .error (.generationFailed (generationFailedHead ++ message))
      , requests := [req] }

theorem findInlineData_first (pre post : List ContentPart) (pt : ContentPart) (blob : Blob)
    (hpre : ∀ q ∈ pre, q.inlineData = none) (hpt : pt.inlineData = some blob) :
    findInlineData (pre ++ pt :: post) = some blob.data := by
  induction pre with
  | nil => simp [findInlineData, hpt]
  | cons q qs ih =>
    have hq : q.inlineData = none := hpre q (by simp)
    simp only [List.cons_append, findInlineData, hq]
    exact ih fun r hr => hpre r (by simp [hr])

theorem findInlineData_none (l : List ContentPart)
    (h : ∀ q ∈ l, q.inlineData = none) : findInlineData l = none := by
  induction l with
  | nil => rfl
  | cons q qs ih =>
    have hq : q.inlineData = none := h q (by simp)
    simp only [findInlineData, hq]
    exact ih fun r hr => h r (by simp [hr])

theorem editRun_requests (apiKey : Option String)
    (service : GenerateContentParams → ServiceOutcome)
    (b m p : String) (hkey : apiKeyMissing apiKey = false) :
    (editImageWithPrompt apiKey service b m p).requests = [buildRequest b m p] := by
  unfold editImageWithPrompt
  rw [hkey]
  simp only [Bool.false_eq_true, if_false]
  cases tryBody (service (buildRequest b m p)) <;> rfl

theorem editRun_result_of_outcome (apiKey : Option String)
    (service : GenerateContentParams → ServiceOutcome)
    (b m p : String) (hkey : apiKeyMissing apiKey = false) :
    (editImageWithPrompt apiKey service b m p).result =
      match tryBody (service (buildRequest b m p)) with
      | .ok data => .ok data
      | .error message => .error (.generationFailed (generationFailedHead ++ message)) := by
  unfold editImageWithPrompt
  rw [hkey]
  simp only [Bool.false_eq_true, if_false]
  cases tryBody (service (buildRequest b m p)) <;> rfl

theorem responseParts_malformed (resp : GenerateContentResponse)
    (hmal : resp.candidates = none ∨ resp.candidates = some [] ∨
      (∃ cand rest, resp.candidates = some (cand :: rest) ∧ cand.content = none) ∨
      (∃ cand rest content, resp.candidates = some (cand :: rest) ∧
        cand.content = some content ∧ content.parts = none)) :
    responseParts resp = [] := by
  unfold responseParts
  rcases hmal with h | h | ⟨cand, rest, h, hc⟩ | ⟨cand, rest, content, h, hc, hp⟩
  · rw [h]
  · rw [h]
  · rw [h]; simp [hc]
  · rw [h]; simp [hc, hp]

theorem tryBody_success (resp : GenerateContentResponse) :
    tryBody (.success resp) =
      match findInlineData (responseParts resp) with
      | some data => .ok data
      | none => .error noImageMessage := rfl

/-- Mock response: first candidate's first part carries inline data "ABC123". -/
def respABC : GenerateContentResponse :=
  { candidates := some
      [ { content := some
            { parts := some
                [ { inlineData := some { data := "ABC123", mimeType := "image/png" }
                  , text := none } ] } } ] }

/-- Mock response: the only part of the only candidate is a text part. -/
def respTextOnly : GenerateContentResponse :=
  { candidates := some
      [ { content := some
            { parts := some [ { inlineData := none, text := some "cannot comply" } ] } } ] }

/-- Mock response whose candidate list is absent. -/
def respNoCandidates : GenerateContentResponse := { candidates := none }

/-- C1: for every binary file, `fileToBase64` returns the bare base64
encoding of the file's bytes, no data-URI prefix, and standard base64
decoding recovers exactly the bytes. -/
theorem fileToBase64_roundtrips (mime : String) (bytes : List Nat)
    (hm : ',' ∉ mime.data) (hb : ∀ b ∈ bytes, b < 256) :
    fileToBase64 mime bytes = some (base64Encode bytes) ∧
    base64Decode (base64Encode bytes) = some bytes :=
  ⟨fileToBase64_eq mime bytes hm, base64_roundtrip bytes hb⟩

theorem fileToBase64_roundtrips_witness :
    fileToBase64 "image/png" [1, 255, 0, 77] = some (base64Encode [1, 255, 0, 77]) ∧
    base64Decode (base64Encode [1, 255, 0, 77]) = some [1, 255, 0, 77] :=
  fileToBase64_roundtrips "image/png" [1, 255, 0, 77] (by decide) (by decide)

/-- C2: with no credential configured, `editImageWithPrompt` fails at once
with the missing-credential error and issues no request. -/
theorem editImageWithPrompt_unset_key (service : GenerateContentParams → ServiceOutcome)
    (b m p : String) :
    editImageWithPrompt none service b m p =
      { result := .error (.missingCredential missingKeyMessage), requests := [] } := rfl

/-- C3: when the key is present, the call succeeds and the first candidate
holds a part with inline data after only inline-free parts, the function
returns exactly that part's data. -/
theorem editImageWithPrompt_returns_first_inline (apiKey : Option String)
    (service : GenerateContentParams → ServiceOutcome) (b m p : String)
    (resp : GenerateContentResponse) (pre post : List ContentPart)
    (pt : ContentPart) (blob : Blob)
    (hkey : apiKeyMissing apiKey = false)
    (hresp : service (buildRequest b m p) = .success resp)
    (hparts : responseParts resp = pre ++ pt :: post)
    (hpre : ∀ q ∈ pre, q.inlineData = none)
    (hpt : pt.inlineData = some blob) :
    (editImageWithPrompt apiKey service b m p).result = .ok blob.data := by
  rw [editRun_result_of_outcome apiKey service b m p hkey, hresp, tryBody_success, hparts,
    findInlineData_first pre post pt blob hpre hpt]

theorem editImageWithPrompt_returns_first_inline_witness :
    (editImageWithPrompt (some "key") (fun _ => .success respABC)
      "img64" "image/png" "make it blue").result = .ok "ABC123" :=
  editImageWithPrompt_returns_first_inline (some "key") (fun _ => .success respABC)
    "img64" "image/png" "make it blue" respABC []  []
    { inlineData := some { data := "ABC123", mimeType := "image/png" }, text := none }
    { data := "ABC123", mimeType := "image/png" }
    rfl rfl rfl (by simp) rfl

/-- C4: when the call succeeds but no part of the first candidate carries
inline data (empty or absent candidates included), the `try` block throws
the no-image error, and the caller receives the generation-failure wrapper
around that no-image diagnostic rather than a value. -/
theorem editImageWithPrompt_no_image_error (apiKey : Option String)
    (service : GenerateContentParams → ServiceOutcome) (b m p : String)
    (resp : GenerateContentResponse)
    (hkey : apiKeyMissing apiKey = false)
    (hresp : service (buildRequest b m p) = .success resp)
    (hnone : ∀ q ∈ responseParts resp, q.inlineData = none) :
    tryBody (.success resp) = .error noImageMessage ∧
    (editImageWithPrompt apiKey service b m p).result =
      .error (.generationFailed (generationFailedHead ++ noImageMessage)) := by
  have htry : tryBody (.success resp) = .error noImageMessage := by
    rw [tryBody_success, findInlineData_none _ hnone]
  refine ⟨htry, ?_⟩
  rw [editRun_result_of_outcome apiKey service b m p hkey, hresp, htry]

theorem editImageWithPrompt_no_image_error_witness :
    tryBody (.success respTextOnly) = .error noImageMessage ∧
    (editImageWithPrompt (some "key") (fun _ => .success respTextOnly)
      "img64" "image/png" "make it blue").result =
      .error (.generationFailed (generationFailedHead ++ noImageMessage)) :=
  editImageWithPrompt_no_image_error (some "key") (fun _ => .success respTextOnly)
    "img64" "image/png" "make it blue" respTextOnly rfl rfl (by decide)

/-- C5: every failure of the remote call is re-raised as the uniform
generation-failure error whose message extends the underlying diagnostic. -/
theorem editImageWithPrompt_wraps_transport_failure (apiKey : Option String)
    (service : GenerateContentParams → ServiceOutcome) (b m p : String) (msg : String)
    (hkey : apiKeyMissing apiKey = false)
    (hfail : service (buildRequest b m p) = .failure msg) :
    (editImageWithPrompt apiKey service b m p).result =
      .error (.generationFailed (generationFailedHead ++ msg)) := by
  rw [editRun_result_of_outcome apiKey service b m p hkey, hfail]
  rfl

theorem editImageWithPrompt_wraps_transport_failure_witness :
    (editImageWithPrompt (some "key") (fun _ => .failure "HTTP 500 Internal Server Error")
      "img64" "image/png" "make it blue").result =
      .error (.generationFailed (generationFailedHead ++ "HTTP 500 Internal Server Error")) :=
  editImageWithPrompt_wraps_transport_failure (some "key")
    (fun _ => .failure "HTTP 500 Internal Server Error")
    "img64" "image/png" "make it blue" "HTTP 500 Internal Server Error" rfl rfl

/-- C6: on an empty file the encoder yields the empty string, not an
error. -/
theorem fileToBase64_empty (mime : String) (hm : ',' ∉ mime.data) :
    fileToBase64 mime [] = some [] :=
  fileToBase64_eq mime [] hm

theorem fileToBase64_empty_witness : fileToBase64 "image/png" [] = some [] :=
  fileToBase64_empty "image/png" (by decide)

/-- C7: past the credential check, exactly the request built from the
inputs is issued, its content is exactly two ordered parts — inline image
data with its media type, then the instruction text — and it declares the
image response modality. -/
theorem editImageWithPrompt_request_shape (apiKey : Option String)
    (service : GenerateContentParams → ServiceOutcome) (b m p : String)
    (hkey : apiKeyMissing apiKey = false) :
    (editImageWithPrompt apiKey service b m p).requests = [buildRequest b m p] ∧
    (buildRequest b m p).parts =
      [ { inlineData := some { data := b, mimeType := m }, text := none }
      , { inlineData := none, text := some p } ] ∧
    (buildRequest b m p).responseModalities = [Modality.image] :=
  ⟨editRun_requests apiKey service b m p hkey, rfl, rfl⟩

theorem editImageWithPrompt_request_shape_witness :
    (editImageWithPrompt (some "key") (fun _ => .failure "offline")
      "img64" "image/png" "make it blue").requests =
      [buildRequest "img64" "image/png" "make it blue"] ∧
    (buildRequest "img64" "image/png" "make it blue").parts =
      [ { inlineData := some { data := "img64", mimeType := "image/png" }, text := none }
      , { inlineData := none, text := some "make it blue" } ] ∧
    (buildRequest "img64" "image/png" "make it blue").responseModalities = [Modality.image] :=
  editImageWithPrompt_request_shape (some "key") (fun _ => .failure "offline")
    "img64" "image/png" "make it blue" rfl

/-- C8: past the credential check exactly one request is issued, whether
the run succeeds or fails. -/
theorem editImageWithPrompt_single_call (apiKey : Option String)
    (service : GenerateContentParams → ServiceOutcome) (b m p : String)
    (hkey : apiKeyMissing apiKey = false) :
    (editImageWithPrompt apiKey service b m p).requests.length = 1 := by
  rw [editRun_requests apiKey service b m p hkey]
  rfl

theorem editImageWithPrompt_single_call_witness :
    (editImageWithPrompt (some "key") (fun _ => .failure "HTTP 500")
      "img64" "image/png" "make it blue").requests.length = 1 :=
  editImageWithPrompt_single_call (some "key") (fun _ => .failure "HTTP 500")
    "img64" "image/png" "make it blue" rfl

/-- C9: when the candidate list, the first candidate's content, or its
parts list is absent (or the list empty), the traversal is total and the
run ends in the wrapped no-image error, not a crash. -/
theorem editImageWithPrompt_total_on_malformed (apiKey : Option String)
    (service : GenerateContentParams → ServiceOutcome) (b m p : String)
    (resp : GenerateContentResponse)
    (hkey : apiKeyMissing apiKey = false)
    (hresp : service (buildRequest b m p) = .success resp)
    (hmal : resp.candidates = none ∨ resp.candidates = some [] ∨
      (∃ cand rest, resp.candidates = some (cand :: rest) ∧ cand.content = none) ∨
      (∃ cand rest content, resp.candidates = some (cand :: rest) ∧
        cand.content = some content ∧ content.parts = none)) :
    (editImageWithPrompt apiKey service b m p).result =
      .error (.generationFailed (generationFailedHead ++ noImageMessage)) := by
  rw [editRun_result_of_outcome apiKey service b m p hkey, hresp, tryBody_success,
    responseParts_malformed resp hmal]
  rfl

theorem editImageWithPrompt_total_on_malformed_witness :
    (editImageWithPrompt (some "key") (fun _ => .success respNoCandidates)
      "img64" "image/png" "make it blue").result =
      .error (.generationFailed (generationFailedHead ++ noImageMessage)) :=
  editImageWithPrompt_total_on_malformed (some "key") (fun _ => .success respNoCandidates)
    "img64" "image/png" "make it blue" respNoCandidates rfl rfl (Or.inl rfl)

/-- C10: a credential set to the empty string behaves exactly like an
absent credential: same missing-credential error, no request issued. -/
theorem editImageWithPrompt_empty_key (service : GenerateContentParams → ServiceOutcome)
    (b m p : String) :
    editImageWithPrompt (some "") service b m p = editImageWithPrompt none service b m p ∧
    (editImageWithPrompt (some "") service b m p).result =
      .error (.missingCredential missingKeyMessage) ∧
    (editImageWithPrompt (some "") service b m p).requests = [] :=
  ⟨rfl, rfl, rfl⟩
